import Mathlib

/-!
Verification development for the GreenpointStandiumScraper repository.

The repository has two Python scripts:
* `generate_dhl_ics.py` — fetches stadium events from an API, normalizes each
  date range into a calendar event, adds synthetic "First Thursdays" events,
  sorts everything by start time and writes an `.ics` file.
* `test.py` — scrapes seven fixed event web sites, extracts event dates from
  the visible page text with an ordered list of regular-expression patterns,
  and writes a JSON report.

This file shallowly embeds the data model and the functions that the frozen
claims are about, keeping the source names where Lean allows it.  External
collaborators (the `requests` session, BeautifulSoup, `dateutil`,
`datetime.fromisoformat`, the `ics` library) are modelled by executable Lean
functions that are faithful on the input shapes the scripts produce; each such
model says so in its doc comment.
-/

/-! ## Calendar arithmetic (proleptic Gregorian, as in the Python `datetime` module) -/

/-- Leap-year rule of the proleptic Gregorian calendar used by `datetime`. -/
def isLeap (y : Nat) : Bool := y % 4 == 0 && (y % 100 != 0 || y % 400 == 0)

/-- Number of days in month `m` (1..12) of year `y`, as in `calendar`/`datetime`. -/
def daysInMonth (y m : Nat) : Nat :=
  match m with
  | 1 => 31
  | 2 => if isLeap y then 29 else 28
  | 3 => 31
  | 4 => 30
  | 5 => 31
  | 6 => 30
  | 7 => 31
  | 8 => 31
  | 9 => 30
  | 10 => 31
  | 11 => 30
  | 12 => 31
  | _ => 0

/-- Days in year `y` that precede month `m`. -/
def daysBeforeMonth (y m : Nat) : Nat :=
  ((List.range (m - 1)).map (fun i => daysInMonth y (i + 1))).sum

/-- Proleptic-Gregorian ordinal of a calendar day, as `datetime.date.toordinal`:
day 1 is January 1 of year 1. -/
def toOrdinal (y m d : Nat) : Nat :=
  365 * (y - 1) + (y - 1) / 4 + (y - 1) / 400 - (y - 1) / 100 + daysBeforeMonth y m + d

/-- Weekday with Monday = 0 .. Sunday = 6, as `datetime.date.weekday`. -/
def weekday (y m d : Nat) : Nat := (toOrdinal y m d + 6) % 7

/-- A calendar date at day precision (the value produced by
`dateutil.parser.parse(...).date()` in `parse_iso_date`). -/
structure Date where
  year : Nat
  month : Nat
  day : Nat
deriving DecidableEq, Repr

/-- Day-precision date order; on valid dates this coincides with the order of
the ISO `YYYY-MM-DD` strings the scraper serializes. -/
def dateLE (a b : Date) : Bool :=
  a.year < b.year ||
    (a.year == b.year &&
      (a.month < b.month || (a.month == b.month && a.day ≤ b.day)))

/-- One step of `dt += timedelta(days=1)` on a calendar day. -/
def addOneDay (dt : Date) : Date :=
  if dt.day < daysInMonth dt.year dt.month then ⟨dt.year, dt.month, dt.day + 1⟩
  else if dt.month < 12 then ⟨dt.year, dt.month + 1, 1⟩
  else ⟨dt.year + 1, 1, 1⟩

/-! ## Timestamps (the Python `datetime.datetime` values the scripts build) -/

/-- A timestamp as held by a Python `datetime`: calendar day, time of day with
microseconds, and an optional fixed UTC offset in minutes (`None` = naive). -/
structure DT where
  year : Nat
  month : Nat
  day : Nat
  hour : Nat
  minute : Nat
  second : Nat
  microsecond : Nat
  tz : Option Int
deriving DecidableEq, Repr

/-- The value `datetime.max` used by `get_event_start_dt` as the fallback key. -/
def dtMax : DT := ⟨9999, 12, 31, 23, 59, 59, 999999, none⟩

/-- Linearization of the Python `datetime` order on COMPARABLE pairs only
(both offset-aware, compared by instant, or both naive, compared field-wise):
microseconds since the proleptic epoch, shifted by the UTC offset when one is
present.  Python raises `TypeError` on a naive/aware pair; that partiality is
modelled in `dtCmpLeE` below, which consults this key only after checking
that the two operands agree in awareness. -/
def dtKey (t : DT) : Int :=
  (toOrdinal t.year t.month t.day : Int) * 86400000000 +
    ((t.hour * 3600 + t.minute * 60 + t.second : Nat) : Int) * 1000000 +
    (t.microsecond : Int) - (t.tz.getD 0) * 60000000

deriving instance DecidableEq for Except

/-- Python exceptions that the calendar script can raise while normalizing. -/
inductive PyExn where
  | attributeError
  | typeError
  | valueError
deriving DecidableEq, Repr

/-! ## Model of `datetime.fromisoformat`

`get_api_events` calls `datetime.fromisoformat(start.replace("Z", "+00:00"))`.
The model below parses the grammar `YYYY-MM-DD[<sep>HH[:MM[:SS[.fff[fff]]]][±HH:MM]]`
accepted by `fromisoformat` on the strings the API produces, validating the
calendar ranges exactly as Python does and failing with `ValueError` otherwise. -/

/-- Reads exactly `n` leading decimal digits, returning their value and the rest. -/
def readNDigits : Nat → Nat → List Char → Option (Nat × List Char)
  | 0, acc, s => some (acc, s)
  | n + 1, acc, s =>
    match s with
    | [] => none
    | c :: rest =>
      if c.isDigit then readNDigits n (acc * 10 + (c.toNat - 48)) rest else none

/-- Consumes one expected character. -/
def expectChar (c : Char) (s : List Char) : Option (List Char) :=
  match s with
  | [] => none
  | x :: rest => if x = c then some rest else none

/-- Numeric value of a list of decimal digits. -/
def digitsVal (l : List Char) : Nat :=
  l.foldl (fun acc c => acc * 10 + (c.toNat - 48)) 0

/-- Parses the optional `.fff` / `.ffffff` fraction into microseconds. -/
def parseFraction (s : List Char) : Option (Nat × List Char) :=
  match s with
  | '.' :: rest =>
    let digs := rest.takeWhile Char.isDigit
    let rest2 := rest.dropWhile Char.isDigit
    if digs.length = 3 then some (digitsVal digs * 1000, rest2)
    else if digs.length = 6 then some (digitsVal digs, rest2)
    else none
  | _ => some (0, s)

/-- Parses the optional `±HH:MM` offset, which must end the string. -/
def parseOffset (s : List Char) : Option (Option Int) :=
  match s with
  | [] => some none
  | c :: rest =>
    if c = '+' || c = '-' then do
      let (oh, r1) ← readNDigits 2 0 rest
      let r2 ← expectChar ':' r1
      let (om, r3) ← readNDigits 2 0 r2
      if r3 = [] && oh ≤ 23 && om ≤ 59 then
        let mins : Int := (oh * 60 + om : Nat)
        some (some (if c = '-' then -mins else mins))
      else none
    else none

/-- Parses the `HH[:MM[:SS[.frac]]][offset]` tail of an ISO timestamp. -/
def parseTimeTail (s : List Char) : Option (Nat × Nat × Nat × Nat × Option Int) := do
  let (h, r1) ← readNDigits 2 0 s
  match r1 with
  | ':' :: r2 => do
    let (mi, r3) ← readNDigits 2 0 r2
    match r3 with
    | ':' :: r4 => do
      let (sec, r5) ← readNDigits 2 0 r4
      let (micro, r6) ← parseFraction r5
      let tz ← parseOffset r6
      some (h, mi, sec, micro, tz)
    | _ => do
      let tz ← parseOffset r3
      some (h, mi, 0, 0, tz)
  | _ => do
    let tz ← parseOffset r1
    some (h, 0, 0, 0, tz)

/-- Core of the `fromisoformat` model, on the character list of the input. -/
def parseIsoCore (cs : List Char) : Option DT := do
  let (y, r1) ← readNDigits 4 0 cs
  let r2 ← expectChar '-' r1
  let (mo, r3) ← readNDigits 2 0 r2
  let r4 ← expectChar '-' r3
  let (d, r5) ← readNDigits 2 0 r4
  if 1 ≤ y && 1 ≤ mo && mo ≤ 12 && 1 ≤ d && d ≤ daysInMonth y mo then
    match r5 with
    | [] => some ⟨y, mo, d, 0, 0, 0, 0, none⟩
    | _sep :: tail => do
      let (h, mi, sec, micro, tz) ← parseTimeTail tail
      if h ≤ 23 && mi ≤ 59 && sec ≤ 59 then some ⟨y, mo, d, h, mi, sec, micro, tz⟩
      else none
  else none

/-- Lowercasing on the character list (`str.lower` on the ASCII inputs used). -/
def toLowerStr (s : String) : String := String.mk (s.data.map Char.toLower)

/-- Whitespace stripping on both ends, as `str.strip()`. -/
def stripStr (s : String) : String :=
  String.mk (((s.data.dropWhile Char.isWhitespace).reverse.dropWhile Char.isWhitespace).reverse)

/-- Suffix test on the character list. -/
def endsWithStr (s suffix : String) : Bool := suffix.data.isSuffixOf s.data

/-- Drops the last `n` characters. -/
def dropRightStr (s : String) (n : Nat) : String :=
  String.mk (s.data.take (s.data.length - n))

/-- Models `int(...)` on the token strings in play: defined exactly on
nonempty all-digit strings. -/
def strToNat? (s : String) : Option Nat :=
  if s.data ≠ [] && s.data.all Char.isDigit then some (digitsVal s.data) else none

/-- Model of `datetime.fromisoformat`, raising `ValueError` on anything
outside the accepted grammar, as Python does. -/
def fromisoformat (s : String) : Except PyExn DT :=
  match parseIsoCore s.data with
  | some t => .ok t
  | none => .error .valueError

/-- Embeds the Python call `s.replace("Z", "+00:00")`: every occurrence of
the one-character pattern `"Z"` is replaced by `"+00:00"`. -/
def replaceZ (s : String) : String :=
  String.mk (s.data.flatMap fun c => if c = 'Z' then "+00:00".data else [c])

/-! ## Model of the token-level date parsing in `test.py` -/

/-- Month-name lookup covering exactly the strings `MONTHS_REGEX` can capture,
case-insensitively; these are all recognized by `dateutil`. -/
def monthFromName (s : String) : Option Nat :=
  match toLowerStr s with
  | "jan" | "january" => some 1
  | "feb" | "february" => some 2
  | "mar" | "march" => some 3
  | "apr" | "april" => some 4
  | "may" => some 5
  | "jun" | "june" => some 6
  | "jul" | "july" => some 7
  | "aug" | "august" => some 8
  | "sep" | "sept" | "september" => some 9
  | "oct" | "october" => some 10
  | "nov" | "november" => some 11
  | "dec" | "december" => some 12
  | _ => none

/-- Strips one trailing ordinal suffix after trimming, as
`re.sub(r"(st|nd|rd|th)$", "", day.strip(), flags=re.IGNORECASE)`. -/
def stripOrdinal (s : String) : String :=
  let t := stripStr s
  let low := toLowerStr t
  if endsWithStr low "st" || endsWithStr low "nd" || endsWithStr low "rd" || endsWithStr low "th" then
    dropRightStr t 2
  else t

/-- Embeds `parse_iso_date` from `test.py`.  The final
`dateutil.parser.parse(f"{day} {month} {year}", fuzzy=True).date()` call is an
external collaborator; it is modelled on the token shapes this script feeds it
(numeric day, a month name from `MONTHS_REGEX`, numeric year), validating the
day against the month length exactly as `dateutil` does and failing otherwise. -/
def parse_iso_date (day month year : String) : Except Unit Date :=
  let d := stripOrdinal day
  match strToNat? d, monthFromName month, strToNat? year with
  | some dn, some mn, some yn =>
    if 1 ≤ dn && dn ≤ daysInMonth yn mn && 1 ≤ yn && yn ≤ 9999 then .ok ⟨yn, mn, dn⟩
    else .error ()
  | _, _, _ => .error ()

/-- Embeds `is_recent_date` from `test.py`, with the execution-time
`datetime.now().year` made an explicit parameter. -/
def is_recent_date (nowYear year : Nat) : Bool :=
  nowYear ≤ year && year ≤ nowYear + 1

/-! ## A small regular-expression engine

The scraper patterns use only literals, character classes, alternation,
greedy `?`, greedy `*` over a character class, bounded repetition (expanded
into optionals) and named groups.  The engine below enumerates candidate
matches in the priority order of the Python `re` backtracking engine
(alternatives left to right, greedy quantifiers longest first) and takes the
first one, so it agrees with `re` on these patterns. -/

/-- Regular expressions as used by the scraper patterns. -/
inductive RE where
  | eps
  | cls (f : Char → Bool)
  | seq (a b : RE)
  | alt (a b : RE)
  | opt (a : RE)
  | starCls (f : Char → Bool)
  | group (tag : String) (r : RE)

/-- Captured named groups of one match attempt. -/
abbrev Caps := List (String × String)

/-- Suffixes reachable by greedily consuming a character class, longest
consumption first (the backtracking order of a greedy `*`). -/
def starSuffixes (f : Char → Bool) : List Char → List (List Char)
  | [] => [[]]
  | c :: s => if f c then starSuffixes f s ++ [c :: s] else [c :: s]

/-- All ways a regular expression can match a prefix of the input, as
(remaining input, captures) pairs in backtracking priority order. -/
def matchRE : RE → List Char → List (List Char × Caps)
  | .eps, s => [(s, [])]
  | .cls f, s =>
    match s with
    | [] => []
    | c :: rest => if f c then [(rest, [])] else []
  | .seq a b, s =>
    (matchRE a s).flatMap fun p => (matchRE b p.1).map fun q => (q.1, p.2 ++ q.2)
  | .alt a b, s => matchRE a s ++ matchRE b s
  | .opt a, s => matchRE a s ++ [(s, [])]
  | .starCls f, s => (starSuffixes f s).map fun r => (r, [])
  | .group tag a, s =>
    (matchRE a s).map fun p => (p.1, p.2 ++ [(tag, String.mk (s.take (s.length - p.1.length)))])

/-- Named-group dictionary of a match, with absent groups as `""` — the shape
`{k: (v or "") for k, v in m.groupdict().items()}` produces in `try_patterns`. -/
structure GroupDict where
  d1 : String := ""
  d2 : String := ""
  mon : String := ""
  mon1 : String := ""
  mon2 : String := ""
  year : String := ""
deriving DecidableEq, Repr

/-- Looks a tag up in the captures, defaulting to the empty string. -/
def capGet (caps : Caps) (tag : String) : String :=
  match caps.lookup tag with
  | some v => v
  | none => ""

/-- Builds the group dictionary from raw captures. -/
def gdOfCaps (caps : Caps) : GroupDict :=
  { d1 := capGet caps "d1", d2 := capGet caps "d2", mon := capGet caps "mon",
    mon1 := capGet caps "mon1", mon2 := capGet caps "mon2", year := capGet caps "year" }

/-- Attempts a match of `r` starting at character position `i` of `text`,
returning the highest-priority match there, as the `re` engine does. -/
def reMatchAt (r : RE) (text : String) (i : Nat) : Option GroupDict :=
  ((matchRE r (text.data.drop i)).head?).map fun p => gdOfCaps p.2

/-- Abstract view of a compiled pattern, as `try_patterns` consumes it: the
possible match at each start position of the text. -/
def Pattern := String → Nat → Option GroupDict

/-- The pattern given by a concrete regular expression. -/
def rePattern (r : RE) : Pattern := fun text i => reMatchAt r text i

/-- Embeds `pat.search(text)`: the match at the leftmost position that has
one, or `None`. -/
def searchPat (p : Pattern) (text : String) : Option GroupDict :=
  (List.range (text.length + 1)).findSome? fun i => p text i

/-! ## The concrete scraper patterns -/

/-- Single-character class for a literal character. -/
def reChar (c : Char) : RE := .cls fun x => x = c

/-- Case-insensitive character literal; the argument is given lowercase. -/
def reCharCI (c : Char) : RE := .cls fun x => x.toLower = c

/-- Case-insensitive string literal; the argument is given lowercase. -/
def reStrCI (s : String) : RE := (s.data.map reCharCI).foldr .seq .eps

/-- Sequencing of a pattern list. -/
def reSeq (l : List RE) : RE := l.foldr .seq .eps

/-- Alternation of a pattern list, left to right. -/
def reAlts : List RE → RE
  | [] => .cls fun _ => false
  | [r] => r
  | r :: rest => .alt r (reAlts rest)

/-- Class `\d` (the texts involved are ASCII). -/
def reDigit : RE := .cls Char.isDigit

/-- Class `\s*`. -/
def wsStar : RE := .starCls Char.isWhitespace

/-- Class `\s+`. -/
def wsPlus : RE := .seq (.cls Char.isWhitespace) (.starCls Char.isWhitespace)

/-- Transcribes `MONTHS_REGEX` from `test.py`, alternatives in source order. -/
def monthsRE : RE :=
  reAlts
    [ .seq (reStrCI "jan") (.opt (reStrCI "uary")),
      .seq (reStrCI "feb") (.opt (reStrCI "ruary")),
      .seq (reStrCI "mar") (.opt (reStrCI "ch")),
      .seq (reStrCI "apr") (.opt (reStrCI "il")),
      reStrCI "may",
      .seq (reStrCI "jun") (.opt (reStrCI "e")),
      .seq (reStrCI "jul") (.opt (reStrCI "y")),
      .seq (reStrCI "aug") (.opt (reStrCI "ust")),
      .seq (reStrCI "sep") (.opt (.seq (reStrCI "t") (.opt (reStrCI "ember")))),
      .seq (reStrCI "oct") (.opt (reStrCI "ober")),
      .seq (reStrCI "nov") (.opt (reStrCI "ember")),
      .seq (reStrCI "dec") (.opt (reStrCI "ember")) ]

/-- Transcribes `SEP_REGEX` from `test.py`: dash or textual range markers. -/
def sepRE : RE :=
  reAlts [reChar '-', reChar '–', reChar '—', reStrCI "to", reStrCI "until",
    reStrCI "through", reStrCI "thru"]

/-- Day token `\d{1,2}` (greedy). -/
def dayNumRE : RE := .seq reDigit (.opt reDigit)

/-- Optional ordinal suffix `(?:st|nd|rd|th)?`. -/
def ordSuffixRE : RE :=
  .opt (reAlts [reStrCI "st", reStrCI "nd", reStrCI "rd", reStrCI "th"])

/-- Year group `(?P<year>20\d{2})`. -/
def yearGroupRE : RE := .group "year" (reSeq [reChar '2', reChar '0', reDigit, reDigit])

/-- Optional comma `,?`. -/
def optCommaRE : RE := .opt (reChar ',')

/-- Optional `(?:of\s+)?`. -/
def optOfRE : RE := .opt (reSeq [reStrCI "of", wsPlus])

/-- Generic pattern 1 of `generic_date_hunt`: cross-month range
`30 Sep – 1 Oct 2025`. -/
def genericRE1 : RE :=
  reSeq [.group "d1" dayNumRE, ordSuffixRE, wsStar, .group "mon1" monthsRE, wsStar,
    sepRE, wsStar, .group "d2" dayNumRE, ordSuffixRE, wsStar, .group "mon2" monthsRE,
    wsStar, optCommaRE, wsStar, yearGroupRE]

/-- Generic pattern 2: single-month range `18 - 19 October 2025`. -/
def genericRE2 : RE :=
  reSeq [.group "d1" dayNumRE, ordSuffixRE, wsStar, sepRE, wsStar,
    .group "d2" dayNumRE, ordSuffixRE, wsStar, optOfRE, .group "mon" monthsRE,
    wsStar, optCommaRE, wsStar, yearGroupRE]

/-- Generic pattern 3: month-first range `October 18–19, 2025`. -/
def genericRE3 : RE :=
  reSeq [.group "mon" monthsRE, wsPlus, .group "d1" dayNumRE, ordSuffixRE, wsStar,
    sepRE, wsStar, .group "d2" dayNumRE, ordSuffixRE, wsStar, optCommaRE, wsStar,
    yearGroupRE]

/-- Generic pattern 4: single day, day first, `15th of March 2025`. -/
def genericRE4 : RE :=
  reSeq [.group "d1" dayNumRE, ordSuffixRE, wsStar, optOfRE, .group "mon" monthsRE,
    wsStar, optCommaRE, wsStar, yearGroupRE]

/-- Generic pattern 5: single day, month first, `March 15th, 2025`. -/
def genericRE5 : RE :=
  reSeq [.group "mon" monthsRE, wsPlus, .group "d1" dayNumRE, ordSuffixRE, wsStar,
    optCommaRE, wsStar, yearGroupRE]

/-- The ordered generic pattern list of `generic_date_hunt`. -/
def genericPatterns : List Pattern :=
  [rePattern genericRE1, rePattern genericRE2, rePattern genericRE3,
    rePattern genericRE4, rePattern genericRE5]

/-! ## The extraction loop `try_patterns` -/

/-- Result dictionary `{"start_date": ..., "end_date": ...}` at day
precision. -/
structure StartEnd where
  start_date : Date
  end_date : Date
deriving DecidableEq, Repr

/-- Embeds the body of the `try_patterns` loop once a pattern has matched:
check the year group, apply the recency filter, then dispatch on the three
handled group shapes.  `Except.error` is a raised exception (`int` on a
non-numeric year, or a `dateutil` parse failure inside `parse_iso_date`);
`.ok none` means the loop falls through to the next pattern. -/
def handleMatch (nowYear : Nat) (gd : GroupDict) : Except Unit (Option StartEnd) :=
  if gd.year = "" then .ok none
  else
    match strToNat? gd.year with
    | none => .error ()
    | some y =>
      if !is_recent_date nowYear y then .ok none
      else if gd.d1 ≠ "" && gd.mon1 ≠ "" && gd.d2 ≠ "" && gd.mon2 ≠ "" then do
        let s ← parse_iso_date gd.d1 gd.mon1 gd.year
        let e ← parse_iso_date gd.d2 gd.mon2 gd.year
        .ok (some ⟨s, e⟩)
      else if gd.d1 ≠ "" && gd.d2 ≠ "" && gd.mon ≠ "" then do
        let s ← parse_iso_date gd.d1 gd.mon gd.year
        let e ← parse_iso_date gd.d2 gd.mon gd.year
        .ok (some ⟨s, e⟩)
      else if gd.d1 ≠ "" && gd.mon ≠ "" then do
        let d ← parse_iso_date gd.d1 gd.mon gd.year
        .ok (some ⟨d, d⟩)
      else .ok none

/-- Embeds `try_patterns` from `test.py`, generic in the pattern list exactly
as the source function is; `nowYear` is the execution-time current year. -/
def try_patterns (nowYear : Nat) (text : String) : List Pattern → Except Unit (Option StartEnd)
  | [] => .ok none
  | p :: ps =>
    match searchPat p text with
    | none => try_patterns nowYear text ps
    | some gd =>
      match handleMatch nowYear gd with
      | .ok none => try_patterns nowYear text ps
      | .ok (some r) => .ok (some r)
      | .error e => .error e

/-- What a single pattern contributes at the head of the loop: `.ok none` when
the loop would skip it, otherwise the returned result or raised error. -/
def patOutcome (nowYear : Nat) (text : String) (p : Pattern) : Except Unit (Option StartEnd) :=
  match searchPat p text with
  | none => .ok none
  | some gd => handleMatch nowYear gd

/-- Embeds `generic_date_hunt` from `test.py`. -/
def generic_date_hunt (nowYear : Nat) (text : String) : Except Unit (Option StartEnd) :=
  try_patterns nowYear text genericPatterns

/-! ## Site fetch and aggregation (`safe_get`, `fetch_site`, `fetch_all_events`) -/

/-- Execution environment of the scraper.  `net` models the `requests`
session: `.error` is any transport failure (timeout, network error, or the
exception `raise_for_status` throws on a non-2xx status).  `htmlToText`
models `html_to_text`, whose body delegates to the external BeautifulSoup
library.  `nowYear` is the execution-time current year. -/
structure Env where
  net : String → Except String String
  htmlToText : String → String
  nowYear : Nat

/-- One emitted site record, with optional day-precision dates. -/
structure Record where
  name : String
  url : String
  start_date : Option Date := none
  end_date : Option Date := none
deriving DecidableEq, Repr

/-- A scrape target: the (name, url, optional site-specific patterns) triple
each `fetch_...` wrapper in `test.py` passes to `fetch_site`. -/
structure SiteDesc where
  name : String
  url : String
  patterns : Option (List Pattern)

/-- Output of one `fetch_site` call: the returned value or raised error, the
HTTP requests made, and the warnings logged. -/
structure FetchSiteOut where
  result : Except Unit (Option Record)
  requests : List String
  warnings : List String

/-- Embeds `safe_get`: one `session.get`, any exception caught and turned
into a logged warning and `None`. -/
def safe_get (env : Env) (url : String) : Option String × List String :=
  match env.net url with
  | .ok t => (some t, [])
  | .error e => (none, ["Failed to fetch " ++ url ++ ": " ++ e])

/-- Embeds `fetch_site`: fetch, extract visible text, try the site-specific
patterns when the list is truthy, fall back to `generic_date_hunt`, and
always emit a record with at least the name and url once the fetch
succeeded. -/
def fetch_site (env : Env) (name url : String) (sitePatterns : Option (List Pattern)) :
    FetchSiteOut :=
  match safe_get env url with
  | (none, warns) => ⟨.ok none, [url], warns⟩
  | (some html, warns) =>
    let text := env.htmlToText html
    let siteTry : Except Unit (Option StartEnd) :=
      match sitePatterns with
      | some sp => if sp.isEmpty then .ok none else try_patterns env.nowYear text sp
      | none => .ok none
    match siteTry with
    | .error e => ⟨.error e, [url], warns⟩
    | .ok (some hit) =>
      ⟨.ok (some ⟨name, url, some hit.start_date, some hit.end_date⟩), [url], warns⟩
    | .ok none =>
      match generic_date_hunt env.nowYear text with
      | .error e => ⟨.error e, [url], warns⟩
      | .ok (some hit) =>
        ⟨.ok (some ⟨name, url, some hit.start_date, some hit.end_date⟩), [url], warns⟩
      | .ok none =>
        ⟨.ok (some ⟨name, url, none, none⟩), [url],
          warns ++ ["No valid dates found for " ++ name]⟩

/-- Output of a whole run: emitted records in site order, the requests made,
the warnings logged, and the extractor errors logged. -/
structure RunOut where
  results : List Record
  requests : List String
  warnings : List String
  errors : List String
deriving DecidableEq, Repr

/-- Accumulation step of the `fetch_all_events` loop for one site: a raised
error is caught here, logged, and the site contributes no record; a falsy
return (failed fetch) is not appended; a record is appended. -/
def runStep (name : String) (out : FetchSiteOut) (tail : RunOut) : RunOut :=
  match out.result with
  | .error _ =>
    ⟨tail.results, out.requests ++ tail.requests, out.warnings ++ tail.warnings,
      ("Extractor error in " ++ name) :: tail.errors⟩
  | .ok none =>
    ⟨tail.results, out.requests ++ tail.requests, out.warnings ++ tail.warnings, tail.errors⟩
  | .ok (some r) =>
    ⟨r :: tail.results, out.requests ++ tail.requests, out.warnings ++ tail.warnings,
      tail.errors⟩

/-- Embeds `fetch_all_events`: each extractor in order, any raised error
caught at the aggregation level; the run always continues with the remaining
sites. -/
def fetch_all_events (env : Env) : List SiteDesc → RunOut
  | [] => ⟨[], [], [], []⟩
  | s :: rest =>
    runStep s.name (fetch_site env s.name s.url s.patterns) (fetch_all_events env rest)

/-! ## Calendar pipeline (`generate_dhl_ics.py`) -/

/-- Value of the `begin` or `end` attribute of an event object: never set,
set to a raw string, or set to a computed datetime. -/
inductive TimeVal where
  | unset
  | str (s : String)
  | dt (t : DT)
deriving DecidableEq, Repr

/-- An event as the calendar script builds it. -/
structure CalEvent where
  name : String
  begin : TimeVal
  end_ : TimeVal
  description : String
deriving DecidableEq, Repr

/-- One raw date range from the API: optional `start` and `end` ISO strings
(`none` models an absent key or a JSON null, both falsy in the source). -/
structure RawDR where
  start : Option String
  end_ : Option String
deriving DecidableEq, Repr

/-- One raw event from the API.  A `daterange` value that is present but not
a list is skipped by an `isinstance` guard in the source; no claim depends on
it and it is not modelled. -/
structure RawEvent where
  title : Option String
  description : Option String
  daterange : Option (List RawDR)

/-- One item of the `data` array. -/
structure RawItem where
  event : List RawEvent

/-- Python truthiness of an optional string: `None` and `""` are falsy. -/
def truthyStr : Option String → Bool
  | none => false
  | some s => s ≠ ""

/-- Embeds the body of the `for dr in dateranges` loop of `get_api_events`:
set `begin` when `start` is truthy, then evaluate `not end or end <= start`
(a `TypeError` when `end` is a string and `start` is `None`), defaulting the
end to 23:59:59 of the calendar day of `start` (an `AttributeError` on
`start.replace` when `start` is `None`, a `ValueError` from `fromisoformat`
when `start` is unparseable), and fill in the name and description defaults. -/
def normalize_range (title descr : Option String) (dr : RawDR) : Except PyExn CalEvent :=
  let beginV : TimeVal := if truthyStr dr.start then .str (dr.start.getD "") else .unset
  let nm := title.getD "No title"
  let ds := descr.getD ""
  let condE : Except PyExn Bool :=
    if ¬ truthyStr dr.end_ then .ok true
    else
      match dr.start with
      | none => .error .typeError
      | some ss => .ok (decide ¬ (ss < dr.end_.getD ""))
  match condE with
  | .error e => .error e
  | .ok cond =>
    if cond then
      match dr.start with
      | none => .error .attributeError
      | some ss =>
        match fromisoformat (replaceZ ss) with
        | .error e => .error e
        | .ok sdt =>
          .ok ⟨nm, beginV, .dt { sdt with hour := 23, minute := 59, second := 59 }, ds⟩
    else .ok ⟨nm, beginV, .str (dr.end_.getD ""), ds⟩

/-- Embeds `get_api_events`: both nested loops, events appended in order,
any raised exception aborting the whole call. -/
def get_api_events (items : List RawItem) : Except PyExn (List CalEvent) :=
  items.foldlM
    (fun acc it =>
      it.event.foldlM
        (fun acc2 ev =>
          (ev.daterange.getD []).foldlM
            (fun acc3 dr => do
              let e ← normalize_range ev.title ev.description dr
              pure (acc3 ++ [e]))
            acc2)
        acc)
    []

/-- Models `dateutil.parser.parse` as `get_event_start_dt` applies it to a
string-valued `begin`, on the ISO-like strings this pipeline carries. -/
def dateutilParse (s : String) : Option DT :=
  (fromisoformat (replaceZ s)).toOption

/-- Embeds `get_event_start_dt`: a datetime begin is used as is, a string
begin is parsed with `datetime.max` as the fallback on failure, and an unset
begin also maps to `datetime.max`. -/
def get_event_start_dt (e : CalEvent) : DT :=
  match e.begin with
  | .dt t => t
  | .str s =>
    match dateutilParse s with
    | some t => t
    | none => dtMax
  | .unset => dtMax

/-- Timezone-awareness of the sort key of an event: true exactly when the
underlying Python datetime is offset-aware. -/
def evAware (e : CalEvent) : Bool := (get_event_start_dt e).tz.isSome

/-- Order on the sort keys of two events whose keys are equally aware; this
is the Python `datetime` order restricted to the comparable pairs.  Mixed
pairs are handled by `eventLeE` below. -/
def eventLE (a b : CalEvent) : Prop :=
  dtKey (get_event_start_dt a) ≤ dtKey (get_event_start_dt b)

instance : DecidableRel eventLE := fun _ _ => Int.decLe _ _

/-- Embeds one key comparison of `all_events.sort(key=get_event_start_dt)`:
Python compares two aware datetimes by instant and two naive ones field-wise
(both linearized by `dtKey`), and raises `TypeError` when one operand is
naive and the other aware. -/
def dtCmpLeE (x y : DT) : Except PyExn Bool :=
  if x.tz.isSome = y.tz.isSome then .ok (decide (dtKey x ≤ dtKey y))
  else .error .typeError

/-- Key comparison between two events, as the sort performs it. -/
def eventLeE (a b : CalEvent) : Except PyExn Bool :=
  dtCmpLeE (get_event_start_dt a) (get_event_start_dt b)

/-- Insertion step of a stable comparison sort whose comparisons can raise; a
raised comparison aborts the whole sort, as in Python. -/
def orderedInsertE {α : Type} (le : α → α → Except PyExn Bool) (a : α) :
    List α → Except PyExn (List α)
  | [] => .ok [a]
  | b :: l =>
    match le a b with
    | .error e => .error e
    | .ok true => .ok (a :: b :: l)
    | .ok false =>
      match orderedInsertE le a l with
      | .error e => .error e
      | .ok l2 => .ok (b :: l2)

/-- Stable comparison sort with failing comparisons, modelling `list.sort`.
On a key multiset whose pairs are all comparable it completes with the stable
key order; and, like any comparison sort (Timsort included), it must compare
a naive key with an aware one whenever both kinds occur, which raises — both
facts are proved below. -/
def insertionSortE {α : Type} (le : α → α → Except PyExn Bool) :
    List α → Except PyExn (List α)
  | [] => .ok []
  | a :: l =>
    match insertionSortE le l with
    | .error e => .error e
    | .ok l2 => orderedInsertE le a l2

/-- Embeds `all_events.sort(key=get_event_start_dt)`: a stable sort by the
start key whose comparisons follow Python `datetime` comparison, including
the `TypeError` on a naive/aware mix. -/
def sortEvents (l : List CalEvent) : Except PyExn (List CalEvent) :=
  insertionSortE eventLeE l

/-! ## First Thursdays generator -/

/-- Embeds the `while dt.weekday() != 3: dt += timedelta(days=1)` scan with
explicit fuel; the fuel 7 used below is proved sufficient. -/
def firstThursdayFrom : Nat → Date → Option Date
  | 0, _ => none
  | fuel + 1, d => if weekday d.year d.month d.day = 3 then some d else firstThursdayFrom fuel (addOneDay d)

/-- The event the `add_first_thursdays` loop body builds for one
(year, month) pair: scan from the 1st to the first Thursday, start 16:00,
end 23:00, fixed name and description. -/
def ftEvent (y m : Nat) : CalEvent :=
  match firstThursdayFrom 7 ⟨y, m, 1⟩ with
  | some d =>
    ⟨"First Thursdays", .dt ⟨d.year, d.month, d.day, 16, 0, 0, 0, none⟩,
      .dt ⟨d.year, d.month, d.day, 23, 0, 0, 0, none⟩,
      "Monthly art and culture event in Cape Town."⟩
  | none =>
    ⟨"First Thursdays", .unset, .unset, "Monthly art and culture event in Cape Town."⟩

/-- Embeds `add_first_thursdays`: one event per month 1..12 per given year. -/
def add_first_thursdays (years : List Nat) : List CalEvent :=
  years.flatMap fun y => (List.range 12).map fun m0 => ftEvent y (m0 + 1)

/-! ## Helper definitions for the witnesses -/

/-- A pattern that never matches (used in witnesses). -/
def patNever : Pattern := fun _ _ => none

/-- A pattern matching at position 0 with a fixed group dictionary (used in
witnesses). -/
def patGd (gd : GroupDict) : Pattern := fun _ i => if i = 0 then some gd else none

/-! ## Helper lemmas about `normalize_range` -/

theorem normalize_range_ok_name_description (t d : Option String) (dr : RawDR) (ev : CalEvent)
    (h : normalize_range t d dr = .ok ev) :
    ev.name = t.getD "No title" ∧ ev.description = d.getD "" := by
  unfold normalize_range at h
  dsimp only at h
  split at h
  · exact absurd h (by simp)
  · split at h
    · split at h
      · exact absurd h (by simp)
      · split at h
        · exact absurd h (by simp)
        · cases h
          exact ⟨rfl, rfl⟩
    · cases h
      exact ⟨rfl, rfl⟩

/-! ## Claim C1 -/

/-- Claim C1 fails as stated: with a start timestamp that carries a
fractional-second component, the defaulted end keeps that component, so it is
not exactly 23:59:59.  Concretely, the range
start = "2025-10-18T09:00:00.500Z", end absent normalizes to an end of
23:59:59.500000 on 2025-10-18, which differs from 23:59:59.000000. -/
theorem c1_counterexample_fractional_end :
    get_api_events [⟨[⟨some "T", none, some [⟨some "2025-10-18T09:00:00.500Z", none⟩]⟩]⟩] =
      .ok [⟨"T", .str "2025-10-18T09:00:00.500Z",
        .dt ⟨2025, 10, 18, 23, 59, 59, 500000, some 0⟩, ""⟩] ∧
    (⟨2025, 10, 18, 23, 59, 59, 500000, some 0⟩ : DT) ≠
      ⟨2025, 10, 18, 23, 59, 59, 0, some 0⟩ := by
  exact ⟨by decide, by decide⟩

/-- Claim C1 amended: for every parseable truthy start whose range has an
absent, blank or non-later (code-point order) end, the normalized end is
23:59:59 on the calendar day of the start, in the timezone of the start, with
the sub-second (microsecond) component of the start preserved — so exactly
23:59:59 whenever the start has no fractional part. -/
theorem c1_end_defaults_to_end_of_start_day (title descr : Option String) (ss : String)
    (endv : Option String) (sdt : DT)
    (hs : ss ≠ "")
    (hp : fromisoformat (replaceZ ss) = .ok sdt)
    (hc : truthyStr endv = false ∨ ∃ es, endv = some es ∧ ¬ (ss < es)) :
    normalize_range title descr ⟨some ss, endv⟩ =
      .ok ⟨title.getD "No title", .str ss,
        .dt { sdt with hour := 23, minute := 59, second := 59 }, descr.getD ""⟩ := by
  have hts : truthyStr (some ss) = true := by simp [truthyStr, hs]
  unfold normalize_range
  rcases hc with hf | ⟨es, rfl, hle⟩
  · simp [hf, hts, hp]
  · by_cases hes : es = ""
    · subst hes
      simp [truthyStr, hts, hp, hs]
    · have : truthyStr (some es) = true := by simp [truthyStr, hes]
      simp [this, hts, hle, hp]

/-- Witness for the amended C1 at the example of the spec:
start = "2025-10-18T09:00:00Z", end absent gives end 2025-10-18T23:59:59
(+00:00, zero microseconds). -/
theorem c1_end_defaults_witness :
    normalize_range (some "x") (some "y") ⟨some "2025-10-18T09:00:00Z", none⟩ =
      .ok ⟨"x", .str "2025-10-18T09:00:00Z",
        .dt ⟨2025, 10, 18, 23, 59, 59, 0, some 0⟩, "y"⟩ := by
  have h := c1_end_defaults_to_end_of_start_day (some "x") (some "y")
    "2025-10-18T09:00:00Z" none ⟨2025, 10, 18, 9, 0, 0, 0, some 0⟩
    (by decide) (by decide) (Or.inl (by decide))
  exact h

/-! ## Claim C4 -/

/-- Claim C4 is contradicted by the code: a date range with an absent start is
not skipped; the loop body evaluates `not end or end <= start` and then
`start.replace(...)`, raising AttributeError when end is also absent (and
TypeError when end is a string), which aborts `get_api_events` instead of
continuing with the remaining ranges. -/
theorem c4_absent_start_raises :
    get_api_events [⟨[⟨none, none, some [⟨none, none⟩]⟩]⟩] = .error PyExn.attributeError ∧
    get_api_events [⟨[⟨none, none, some [⟨none, some "2025-01-01T00:00:00Z"⟩]⟩]⟩] =
      .error PyExn.typeError := by
  exact ⟨rfl, rfl⟩

/-! ## Claim C9 -/

/-- Claim C9 fails as stated for blank titles: a title that is present but
blank is kept verbatim, because `ev.get("title", "No title")` only falls back
when the key is absent.  The normalized name of a record with title `""` is
`""`, not `"No title"`. -/
theorem c9_counterexample_blank_title :
    normalize_range (some "") none ⟨some "2025-10-18T09:00:00Z", none⟩ =
      .ok ⟨"", .str "2025-10-18T09:00:00Z",
        .dt ⟨2025, 10, 18, 23, 59, 59, 0, some 0⟩, ""⟩ ∧
    ("" : String) ≠ "No title" := by
  exact ⟨by decide, by decide⟩

/-- Claim C9 amended: the name defaults to the literal "No title" exactly when
the title key is absent (a present title, blank or not, is kept verbatim), and
the description defaults to the empty string when absent. -/
theorem c9_name_description_defaults (t d : Option String) (dr : RawDR) (ev : CalEvent)
    (h : normalize_range t d dr = .ok ev) :
    (t = none → ev.name = "No title") ∧
    (∀ s, t = some s → ev.name = s) ∧
    (d = none → ev.description = "") := by
  obtain ⟨hn, hd⟩ := normalize_range_ok_name_description t d dr ev h
  refine ⟨?_, ?_, ?_⟩
  · intro ht; simp [ht] at hn; exact hn
  · intro s ht; simp [ht] at hn; exact hn
  · intro hdn; simp [hdn] at hd; exact hd

/-- Witness for the amended C9: an absent title yields the name "No title" and
an absent description yields the empty description. -/
theorem c9_name_description_defaults_witness :
    (⟨"No title", .str "2025-10-18T09:00:00Z",
        .dt ⟨2025, 10, 18, 23, 59, 59, 0, some 0⟩, ""⟩ : CalEvent).name = "No title" ∧
    (⟨"No title", .str "2025-10-18T09:00:00Z",
        .dt ⟨2025, 10, 18, 23, 59, 59, 0, some 0⟩, ""⟩ : CalEvent).description = "" := by
  have h := c9_name_description_defaults none none ⟨some "2025-10-18T09:00:00Z", none⟩
    ⟨"No title", .str "2025-10-18T09:00:00Z",
      .dt ⟨2025, 10, 18, 23, 59, 59, 0, some 0⟩, ""⟩ rfl
  exact ⟨h.1 rfl, h.2.2 rfl⟩

/-! ## Helper lemmas about the `try_patterns` loop -/

theorem try_patterns_cons (nowYear : Nat) (text : String) (p : Pattern) (ps : List Pattern) :
    try_patterns nowYear text (p :: ps) =
      match patOutcome nowYear text p with
      | .ok none => try_patterns nowYear text ps
      | .ok (some r) => .ok (some r)
      | .error e => .error e := by
  cases hs : searchPat p text with
  | none => simp [try_patterns, patOutcome, hs]
  | some gd =>
    cases hh : handleMatch nowYear gd with
    | error e => simp [try_patterns, patOutcome, hs, hh]
    | ok o => cases o <;> simp [try_patterns, patOutcome, hs, hh]

theorem try_patterns_skip (nowYear : Nat) (text : String) (p : Pattern) (ps : List Pattern)
    (h : patOutcome nowYear text p = .ok none) :
    try_patterns nowYear text (p :: ps) = try_patterns nowYear text ps := by
  rw [try_patterns_cons, h]

theorem try_patterns_accept (nowYear : Nat) (text : String) (p : Pattern) (ps : List Pattern)
    (r : StartEnd) (h : patOutcome nowYear text p = .ok (some r)) :
    try_patterns nowYear text (p :: ps) = .ok (some r) := by
  rw [try_patterns_cons, h]

theorem try_patterns_raise (nowYear : Nat) (text : String) (p : Pattern) (ps : List Pattern)
    (e : Unit) (h : patOutcome nowYear text p = .error e) :
    try_patterns nowYear text (p :: ps) = .error e := by
  rw [try_patterns_cons, h]

theorem try_patterns_append_skip (nowYear : Nat) (text : String) (ps₁ ps₂ : List Pattern)
    (h : ∀ q ∈ ps₁, patOutcome nowYear text q = .ok none) :
    try_patterns nowYear text (ps₁ ++ ps₂) = try_patterns nowYear text ps₂ := by
  induction ps₁ with
  | nil => rfl
  | cons q qs ih =>
    rw [List.cons_append, try_patterns_skip nowYear text q _ (h q (by simp))]
    exact ih fun x hx => h x (by simp [hx])

theorem try_patterns_middle_skip (nowYear : Nat) (text : String) (ps₁ : List Pattern)
    (p : Pattern) (ps₂ : List Pattern) (h : patOutcome nowYear text p = .ok none) :
    try_patterns nowYear text (ps₁ ++ p :: ps₂) = try_patterns nowYear text (ps₁ ++ ps₂) := by
  induction ps₁ with
  | nil =>
    simpa using try_patterns_skip nowYear text p ps₂ h
  | cons q qs ih =>
    rw [List.cons_append, List.cons_append, try_patterns_cons, try_patterns_cons, ih]

theorem try_patterns_congr (nowYear : Nat) (text : String) (ps₁ : List Pattern)
    (p p' : Pattern) (ps₂ : List Pattern)
    (h : patOutcome nowYear text p = patOutcome nowYear text p') :
    try_patterns nowYear text (ps₁ ++ p :: ps₂) = try_patterns nowYear text (ps₁ ++ p' :: ps₂) := by
  induction ps₁ with
  | nil => rw [List.nil_append, List.nil_append, try_patterns_cons, try_patterns_cons, h]
  | cons q qs ih =>
    rw [List.cons_append, List.cons_append, try_patterns_cons, try_patterns_cons, ih]

theorem handleMatch_not_recent (nowYear : Nat) (gd : GroupDict) (y : Nat)
    (hy : strToNat? gd.year = some y) (hr : is_recent_date nowYear y = false) :
    handleMatch nowYear gd = .ok none := by
  have hne : gd.year ≠ "" := by
    intro h
    rw [h, show strToNat? "" = none from rfl] at hy
    exact Option.noConfusion hy
  unfold handleMatch
  simp [hne, hy, hr]

/-! ## Claim C3 -/

/-- Claim C3: patterns are tried in list order.  If every earlier pattern is
skipped (no match, or a missing year, or a non-recent year, or no usable group
shape) and pattern `p` produces a usable result `r`, then the extraction
returns `r` whatever patterns come later — so no later pattern can influence
the outcome.  And a pattern whose leftmost match fails the recency filter is
transparent: the extraction on the list with it equals the extraction on the
list without it, so it does not prevent later patterns from being tried. -/
theorem c3_first_usable_pattern_wins (nowYear : Nat) (text : String)
    (ps₁ : List Pattern) (p : Pattern) (ps₂ : List Pattern) :
    ((∀ q ∈ ps₁, patOutcome nowYear text q = .ok none) →
      ∀ r : StartEnd, patOutcome nowYear text p = .ok (some r) →
        ∀ laterPs : List Pattern,
          try_patterns nowYear text (ps₁ ++ p :: laterPs) = .ok (some r)) ∧
    (∀ (gd : GroupDict) (y : Nat), searchPat p text = some gd →
      strToNat? gd.year = some y → is_recent_date nowYear y = false →
      try_patterns nowYear text (ps₁ ++ p :: ps₂) = try_patterns nowYear text (ps₁ ++ ps₂)) := by
  constructor
  · intro hskip r hacc laterPs
    rw [try_patterns_append_skip nowYear text ps₁ _ hskip]
    exact try_patterns_accept nowYear text p laterPs r hacc
  · intro gd y hsearch hyear hrec
    apply try_patterns_middle_skip
    unfold patOutcome
    rw [hsearch]
    exact handleMatch_not_recent nowYear gd y hyear hrec

/-- Group dictionary of a usable single-month-range match (witness data). -/
def gdOct : GroupDict := ⟨"18", "19", "October", "", "", "2025"⟩

/-- Group dictionary of a match whose year fails the recency filter
(witness data). -/
def gdOld : GroupDict := ⟨"12", "", "March", "", "", "2023"⟩

/-- Witness for C3 at current year 2025: a first pattern that never matches,
then a pattern producing 18–19 October 2025, which wins whatever follows; and
a 2023 match is transparent for the extraction. -/
theorem c3_first_usable_pattern_wins_witness :
    try_patterns 2025 "sample" ([patNever] ++ patGd gdOct :: [patNever]) =
      .ok (some ⟨⟨2025, 10, 18⟩, ⟨2025, 10, 19⟩⟩) ∧
    try_patterns 2025 "sample" ([patNever] ++ patGd gdOld :: [patGd gdOct]) =
      try_patterns 2025 "sample" ([patNever] ++ [patGd gdOct]) := by
  constructor
  · exact (c3_first_usable_pattern_wins 2025 "sample" [patNever] (patGd gdOct) []).1
      (by intro q hq; rw [List.mem_singleton.mp hq]; decide)
      ⟨⟨2025, 10, 18⟩, ⟨2025, 10, 19⟩⟩ (by decide) [patNever]
  · exact (c3_first_usable_pattern_wins 2025 "sample" [patNever] (patGd gdOld) [patGd gdOct]).2
      gdOld 2023 (by decide) (by decide) (by decide)

/-! ## Leftmost-match lemmas for `searchPat` -/

theorem findSome?_range_first {β : Type} (f : Nat → Option β) (n j : Nat) (hj : j < n)
    (hs : (f j).isSome) (hnone : ∀ k < j, f k = none) :
    (List.range n).findSome? f = f j := by
  have hdecomp : List.range n = List.range j ++ (List.range (n - j)).map (j + ·) := by
    rw [← List.range_add]
    congr 1
    omega
  have h1 : (List.range j).findSome? f = none := by
    rw [List.findSome?_eq_none_iff]
    intro k hk
    exact hnone k (List.mem_range.mp hk)
  obtain ⟨m, hm⟩ : ∃ m, n - j = m + 1 := ⟨n - j - 1, by omega⟩
  rw [hdecomp, List.findSome?_append, h1, hm, List.range_succ_eq_map]
  simp only [List.map_cons, List.findSome?_cons, Nat.add_zero]
  cases hfj : f j with
  | none => rw [hfj] at hs; simp at hs
  | some b => rfl

theorem searchPat_leftmost (p : Pattern) (text : String) (i : Nat) (gd : GroupDict)
    (hi : i ≤ text.length) (hb : p text i = some gd) :
    ∃ j gd₀, j ≤ i ∧ searchPat p text = some gd₀ ∧ p text j = some gd₀ ∧
      ∀ k < j, p text k = none := by
  have hex : ∃ k, (p text k).isSome := ⟨i, by simp [hb]⟩
  have hjle : Nat.find hex ≤ i := Nat.find_min' hex (by simp [hb])
  have hjsome : (p text (Nat.find hex)).isSome := Nat.find_spec hex
  have hmin : ∀ k < Nat.find hex, p text k = none := by
    intro k hk
    exact Option.not_isSome_iff_eq_none.mp (Nat.find_min hex hk)
  obtain ⟨gd₀, hgd₀⟩ := Option.isSome_iff_exists.mp hjsome
  refine ⟨Nat.find hex, gd₀, hjle, ?_, hgd₀, hmin⟩
  unfold searchPat
  rw [findSome?_range_first (fun k => p text k) (text.length + 1) (Nat.find hex)
    (by omega) hjsome hmin]
  exact hgd₀

/-! ## Claim C10 -/

/-- Claim C10: the extraction looks only at the leftmost occurrence of each
pattern.  First, two patterns with the same leftmost search result are
interchangeable in any pattern list, whatever their other occurrences do.
Second, when the leftmost match of a pattern is skipped (it fails the recency
filter or lacks the required named groups, making `handleMatch` fall
through), the pattern is transparent and only the subsequent patterns are
tried.  Third, `searchPat` indeed returns the match at the least position
that has one. -/
theorem c10_only_leftmost_occurrence_examined (nowYear : Nat) (text : String)
    (ps₁ : List Pattern) (p p' : Pattern) (ps₂ : List Pattern) :
    (searchPat p text = searchPat p' text →
      try_patterns nowYear text (ps₁ ++ p :: ps₂) =
        try_patterns nowYear text (ps₁ ++ p' :: ps₂)) ∧
    (∀ gd : GroupDict, searchPat p text = some gd → handleMatch nowYear gd = .ok none →
      try_patterns nowYear text (ps₁ ++ p :: ps₂) = try_patterns nowYear text (ps₁ ++ ps₂)) ∧
    (∀ (i : Nat) (gd : GroupDict), i ≤ text.length → p text i = some gd →
      ∃ (j : Nat) (gd₀ : GroupDict), j ≤ i ∧ searchPat p text = some gd₀ ∧
        p text j = some gd₀ ∧ ∀ k < j, p text k = none) := by
  refine ⟨?_, ?_, ?_⟩
  · intro h
    apply try_patterns_congr
    unfold patOutcome
    rw [h]
  · intro gd hs hh
    apply try_patterns_middle_skip
    unfold patOutcome
    rw [hs]
    exact hh
  · intro i gd hi hb
    exact searchPat_leftmost p text i gd hi hb

/-- A pattern matching at every position with a fixed group dictionary
(witness data). -/
def patGdEverywhere (gd : GroupDict) : Pattern := fun _ _ => some gd

/-- Witness for C10: a pattern matching only at position 0 and one matching
everywhere, but with the same leftmost result, are interchangeable; a
leftmost match that fails the recency filter makes the pattern transparent;
and the leftmost position is returned. -/
theorem c10_only_leftmost_occurrence_examined_witness :
    try_patterns 2025 "sample" ([patNever] ++ patGd gdOct :: [patNever]) =
      try_patterns 2025 "sample" ([patNever] ++ patGdEverywhere gdOct :: [patNever]) ∧
    try_patterns 2025 "sample" ([patNever] ++ patGd gdOld :: [patGd gdOct]) =
      try_patterns 2025 "sample" ([patNever] ++ [patGd gdOct]) ∧
    ∃ (j : Nat) (gd₀ : GroupDict), j ≤ 0 ∧ searchPat (patGd gdOct) "sample" = some gd₀ ∧
      patGd gdOct "sample" j = some gd₀ ∧ ∀ k < j, patGd gdOct "sample" k = none := by
  refine ⟨?_, ?_, ?_⟩
  · exact (c10_only_leftmost_occurrence_examined 2025 "sample" [patNever]
      (patGd gdOct) (patGdEverywhere gdOct) [patNever]).1 (by decide)
  · exact (c10_only_leftmost_occurrence_examined 2025 "sample" [patNever]
      (patGd gdOld) (patGd gdOld) [patGd gdOct]).2.1 gdOld (by decide) (by decide)
  · exact (c10_only_leftmost_occurrence_examined 2025 "sample" [] (patGd gdOct)
      (patGd gdOct) []).2.2 0 gdOct (by decide) (by decide)

/-! ## Aggregation lemmas for `fetch_all_events` -/

theorem fetch_all_events_append (env : Env) (l₁ l₂ : List SiteDesc) :
    fetch_all_events env (l₁ ++ l₂) =
      ⟨(fetch_all_events env l₁).results ++ (fetch_all_events env l₂).results,
        (fetch_all_events env l₁).requests ++ (fetch_all_events env l₂).requests,
        (fetch_all_events env l₁).warnings ++ (fetch_all_events env l₂).warnings,
        (fetch_all_events env l₁).errors ++ (fetch_all_events env l₂).errors⟩ := by
  induction l₁ with
  | nil => rfl
  | cons s rest ih =>
    rw [List.cons_append]
    show runStep s.name (fetch_site env s.name s.url s.patterns)
      (fetch_all_events env (rest ++ l₂)) = _
    rw [ih]
    cases hres : (fetch_site env s.name s.url s.patterns).result with
    | error e => simp [fetch_all_events, runStep, hres, List.append_assoc]
    | ok o => cases o <;> simp [fetch_all_events, runStep, hres, List.append_assoc]

/-! ## Claim C2 -/

/-- Claim C2 fails as stated: a failing date-token conversion inside a
matched pattern is not treated as a non-match; it propagates out of
`try_patterns` as a raised error.  On "31 February 2025" the fourth generic
pattern matches, `parse_iso_date` fails (day out of range for the month), and
the extraction returns that error instead of falling through or yielding
absent dates. -/
theorem c2_counterexample_parse_error_propagates :
    try_patterns 2025 "31 February 2025" genericPatterns = .error () := by
  decide

/-- Claim C2 amended: when the leftmost match of a pattern reaches the date
conversion and that conversion fails, the error aborts the extraction
(`try_patterns` returns it; no later pattern is tried and no absent-dates
result is produced); the error is only caught at the aggregation level of
`fetch_all_events`, which logs it, omits that site, and continues with the
remaining sites unchanged. -/
theorem c2_parse_error_aborts_extraction (nowYear : Nat) (text : String)
    (ps₁ : List Pattern) (p : Pattern) (ps₂ : List Pattern) :
    ((∀ q ∈ ps₁, patOutcome nowYear text q = .ok none) →
      ∀ gd : GroupDict, searchPat p text = some gd → handleMatch nowYear gd = .error () →
        try_patterns nowYear text (ps₁ ++ p :: ps₂) = .error ()) ∧
    (∀ (env : Env) (s₁ : List SiteDesc) (s : SiteDesc) (s₂ : List SiteDesc),
      (fetch_site env s.name s.url s.patterns).result = .error () →
      (fetch_all_events env (s₁ ++ s :: s₂)).results =
        (fetch_all_events env (s₁ ++ s₂)).results ∧
      (fetch_all_events env (s₁ ++ s :: s₂)).errors =
        (fetch_all_events env s₁).errors ++
          ("Extractor error in " ++ s.name) :: (fetch_all_events env s₂).errors) := by
  constructor
  · intro hskip gd hs hh
    rw [try_patterns_append_skip nowYear text ps₁ _ hskip]
    apply try_patterns_raise
    unfold patOutcome
    rw [hs]
    exact hh
  · intro env s₁ s s₂ herr
    have hmid : fetch_all_events env (s :: s₂) =
        ⟨(fetch_all_events env s₂).results,
          (fetch_site env s.name s.url s.patterns).requests ++ (fetch_all_events env s₂).requests,
          (fetch_site env s.name s.url s.patterns).warnings ++ (fetch_all_events env s₂).warnings,
          ("Extractor error in " ++ s.name) :: (fetch_all_events env s₂).errors⟩ := by
      show runStep s.name (fetch_site env s.name s.url s.patterns)
        (fetch_all_events env s₂) = _
      unfold runStep
      rw [herr]
    rw [fetch_all_events_append env s₁ (s :: s₂), fetch_all_events_append env s₁ s₂, hmid]
    simp

/-- Witness for the amended C2.  The extraction part is instantiated on
"31 February 2025" with the generic pattern list split around its fourth
pattern; the aggregation part on a one-site run whose page text is that same
phrase, showing the record list equal to the run without the site and the
error logged. -/
theorem c2_parse_error_aborts_extraction_witness :
    try_patterns 2025 "31 February 2025"
      ([rePattern genericRE1, rePattern genericRE2, rePattern genericRE3] ++
        rePattern genericRE4 :: [rePattern genericRE5]) = .error () ∧
    (fetch_all_events ⟨fun _ => .ok "31 February 2025", id, 2025⟩
        ([] ++ ⟨"S", "u", none⟩ :: [])).results =
      (fetch_all_events ⟨fun _ => .ok "31 February 2025", id, 2025⟩ ([] ++ [])).results ∧
    (fetch_all_events ⟨fun _ => .ok "31 February 2025", id, 2025⟩
        ([] ++ ⟨"S", "u", none⟩ :: [])).errors =
      (fetch_all_events ⟨fun _ => .ok "31 February 2025", id, 2025⟩ []).errors ++
        ("Extractor error in " ++ "S") ::
          (fetch_all_events ⟨fun _ => .ok "31 February 2025", id, 2025⟩ []).errors := by
  refine ⟨?_, ?_⟩
  · exact (c2_parse_error_aborts_extraction 2025 "31 February 2025"
      [rePattern genericRE1, rePattern genericRE2, rePattern genericRE3]
      (rePattern genericRE4) [rePattern genericRE5]).1
      (by intro q hq; fin_cases hq <;> decide)
      ⟨"31", "", "February", "", "", "2025"⟩ (by decide) (by decide)
  · exact (c2_parse_error_aborts_extraction 2025 "31 February 2025" [] patNever []).2
      ⟨fun _ => .ok "31 February 2025", id, 2025⟩ [] ⟨"S", "u", none⟩ [] (by decide)

/-! ## Year lemmas for claim C5 -/

theorem parse_iso_date_ok_year (d m y : String) (dt : Date)
    (h : parse_iso_date d m y = .ok dt) : strToNat? y = some dt.year := by
  unfold parse_iso_date at h
  dsimp only at h
  split at h
  case h_1 dn mn yn hdn hmn hyn =>
    split at h
    · cases h
      exact hyn
    · exact absurd h (by simp)
  case h_2 => exact absurd h (by simp)

theorem handleMatch_ok_same_year (nowYear : Nat) (gd : GroupDict) (r : StartEnd)
    (h : handleMatch nowYear gd = .ok (some r)) :
    r.start_date.year = r.end_date.year := by
  unfold handleMatch at h
  split at h
  · exact absurd h (by simp)
  · split at h
    · exact absurd h (by simp)
    case h_2 y hy =>
      split at h
      · exact absurd h (by simp)
      · split at h
        · rcases hp1 : parse_iso_date gd.d1 gd.mon1 gd.year with e1 | s
          · rw [hp1] at h
            exact absurd h (by simp [Bind.bind, Except.bind])
          · rw [hp1] at h
            rcases hp2 : parse_iso_date gd.d2 gd.mon2 gd.year with e2 | e
            · rw [hp2] at h
              exact absurd h (by simp [Bind.bind, Except.bind])
            · rw [hp2] at h
              simp [Bind.bind, Except.bind] at h
              cases h
              have h1 := parse_iso_date_ok_year gd.d1 gd.mon1 gd.year s hp1
              have h2 := parse_iso_date_ok_year gd.d2 gd.mon2 gd.year e hp2
              rw [h1] at h2
              exact Option.some.inj h2
        · split at h
          · rcases hp1 : parse_iso_date gd.d1 gd.mon gd.year with e1 | s
            · rw [hp1] at h
              exact absurd h (by simp [Bind.bind, Except.bind])
            · rw [hp1] at h
              rcases hp2 : parse_iso_date gd.d2 gd.mon gd.year with e2 | e
              · rw [hp2] at h
                exact absurd h (by simp [Bind.bind, Except.bind])
              · rw [hp2] at h
                simp [Bind.bind, Except.bind] at h
                cases h
                have h1 := parse_iso_date_ok_year gd.d1 gd.mon gd.year s hp1
                have h2 := parse_iso_date_ok_year gd.d2 gd.mon gd.year e hp2
                rw [h1] at h2
                exact Option.some.inj h2
          · split at h
            · rcases hp1 : parse_iso_date gd.d1 gd.mon gd.year with e1 | s
              · rw [hp1] at h
                exact absurd h (by simp [Bind.bind, Except.bind])
              · rw [hp1] at h
                simp [Bind.bind, Except.bind] at h
                cases h
                rfl
            · exact absurd h (by simp)

theorem try_patterns_ok_some (nowYear : Nat) (text : String) (ps : List Pattern) (r : StartEnd)
    (h : try_patterns nowYear text ps = .ok (some r)) :
    ∃ gd, handleMatch nowYear gd = .ok (some r) := by
  induction ps with
  | nil => exact absurd h (by simp [try_patterns])
  | cons p ps ih =>
    rw [try_patterns_cons] at h
    cases ho : patOutcome nowYear text p with
    | error e => rw [ho] at h; exact absurd h (by simp)
    | ok o =>
      cases o with
      | none => rw [ho] at h; exact ih h
      | some r' =>
        rw [ho] at h
        simp at h
        subst h
        unfold patOutcome at ho
        cases hs : searchPat p text with
        | none => rw [hs] at ho; exact absurd ho (by simp)
        | some gd =>
          rw [hs] at ho
          exact ⟨gd, ho⟩

/-! ## Claim C5 -/

/-- Claim C5 fails as stated: the cross-month shape shares its single
captured year between both sides, so a range whose months wrap the year
boundary produces startDate > endDate.  On "30 Dec to 1 Jan 2025" (current
year 2025) the cross-month pattern yields start 2025-12-30 and end
2025-01-01, violating startDate <= endDate.  A reversed single-month range
such as "19 to 18 October 2025" violates it too. -/
theorem c5_counterexample_year_wrap :
    try_patterns 2025 "30 Dec to 1 Jan 2025" genericPatterns =
      .ok (some ⟨⟨2025, 12, 30⟩, ⟨2025, 1, 1⟩⟩) ∧
    dateLE ⟨2025, 12, 30⟩ ⟨2025, 1, 1⟩ = false := by
  exact ⟨by decide, by decide⟩

/-- Claim C5 amended: whenever the extraction produces a result with both
dates, the two dates always carry the same (single captured) year, and
startDate <= endDate holds exactly when the (month, day) pair of the start is
lexicographically at most that of the end — it can fail, for example on a
cross-month range wrapping the year boundary. -/
theorem c5_dates_share_year (nowYear : Nat) (text : String) (ps : List Pattern) (r : StartEnd)
    (h : try_patterns nowYear text ps = .ok (some r)) :
    r.start_date.year = r.end_date.year ∧
    (dateLE r.start_date r.end_date = true ↔
      (r.start_date.month < r.end_date.month ∨
        (r.start_date.month = r.end_date.month ∧ r.start_date.day ≤ r.end_date.day))) := by
  obtain ⟨gd, hgd⟩ := try_patterns_ok_some nowYear text ps r h
  have hyear := handleMatch_ok_same_year nowYear gd r hgd
  refine ⟨hyear, ?_⟩
  simp [dateLE, hyear]

/-- Witness for the amended C5 on "18 to 19 October 2025": both dates share
the year 2025 and the order test reduces to the (month, day) comparison. -/
theorem c5_dates_share_year_witness :
    (⟨2025, 10, 18⟩ : Date).year = (⟨2025, 10, 19⟩ : Date).year ∧
    (dateLE ⟨2025, 10, 18⟩ ⟨2025, 10, 19⟩ = true ↔
      ((10 : Nat) < 10 ∨ ((10 : Nat) = 10 ∧ (18 : Nat) ≤ 19))) := by
  exact c5_dates_share_year 2025 "18 to 19 October 2025" genericPatterns
    ⟨⟨2025, 10, 18⟩, ⟨2025, 10, 19⟩⟩ (by decide)

/-! ## Claim C6 -/

instance : IsTotal CalEvent eventLE :=
  ⟨fun a b => Int.le_total (dtKey (get_event_start_dt a)) (dtKey (get_event_start_dt b))⟩

instance : IsTrans CalEvent eventLE := ⟨fun _ _ _ hab hbc => le_trans hab hbc⟩

/-- Tests whether the sort key of an event falls back to `datetime.max`: the
begin attribute was never set, or it is a string that fails to parse. -/
def startUnparseable (e : CalEvent) : Bool :=
  match e.begin with
  | .dt _ => false
  | .str s => (dateutilParse s).isNone
  | .unset => true

theorem get_event_start_dt_of_unparseable (e : CalEvent) (h : startUnparseable e = true) :
    get_event_start_dt e = dtMax := by
  cases hb : e.begin with
  | dt t => simp [startUnparseable, hb] at h
  | unset => simp [get_event_start_dt, hb]
  | str s =>
    simp only [startUnparseable, hb, Option.isNone_iff_eq_none] at h
    simp [get_event_start_dt, hb, h]

theorem eventLeE_of_same (a b : CalEvent) (h : evAware a = evAware b) :
    eventLeE a b = .ok (decide (eventLE a b)) := by
  unfold eventLeE dtCmpLeE eventLE
  unfold evAware at h
  rw [if_pos h]

theorem eventLeE_of_diff (a b : CalEvent) (h : evAware a ≠ evAware b) :
    eventLeE a b = .error .typeError := by
  unfold eventLeE dtCmpLeE
  unfold evAware at h
  rw [if_neg h]

theorem orderedInsertE_agree {α : Type} (le : α → α → Except PyExn Bool)
    (r : α → α → Prop) [DecidableRel r] (a : α) (l : List α)
    (h : ∀ x ∈ l, le a x = .ok (decide (r a x))) :
    orderedInsertE le a l = .ok (List.orderedInsert r a l) := by
  induction l with
  | nil => rfl
  | cons b t ih =>
    have hb := h b (by simp)
    unfold orderedInsertE
    rw [hb]
    by_cases hr : r a b
    · rw [decide_eq_true hr]
      simp [List.orderedInsert, hr]
    · rw [decide_eq_false hr]
      rw [ih fun x hx => h x (by simp [hx])]
      simp [List.orderedInsert, hr]

theorem insertionSortE_agree {α : Type} (le : α → α → Except PyExn Bool)
    (r : α → α → Prop) [DecidableRel r] (l : List α)
    (h : ∀ a ∈ l, ∀ b ∈ l, le a b = .ok (decide (r a b))) :
    insertionSortE le l = .ok (List.insertionSort r l) := by
  induction l with
  | nil => rfl
  | cons a t ih =>
    unfold insertionSortE
    rw [ih fun x hx y hy => h x (by simp [hx]) y (by simp [hy])]
    show orderedInsertE le a (List.insertionSort r t) = _
    rw [orderedInsertE_agree le r a (List.insertionSort r t) fun x hx =>
      h a (List.mem_cons_self a t)
        x (List.mem_cons_of_mem a ((List.perm_insertionSort r t).subset hx))]
    rfl

theorem sortEvents_homogeneous (l : List CalEvent)
    (h : ∀ a ∈ l, ∀ b ∈ l, evAware a = evAware b) :
    sortEvents l = .ok (List.insertionSort eventLE l) := by
  apply insertionSortE_agree
  intro a ha b hb
  exact eventLeE_of_same a b (h a ha b hb)

theorem sortEvents_mixed (l : List CalEvent)
    (h : ∃ a ∈ l, ∃ b ∈ l, evAware a ≠ evAware b) :
    sortEvents l = .error .typeError := by
  induction l with
  | nil =>
    obtain ⟨a, ha, -⟩ := h
    exact absurd ha (List.not_mem_nil a)
  | cons x t ih =>
    by_cases hmt : ∀ p ∈ t, ∀ q ∈ t, evAware p = evAware q
    · obtain ⟨a, ha, b, hb, hab⟩ := h
      have hxc : ∃ c ∈ t, evAware x ≠ evAware c := by
        rcases List.mem_cons.mp ha with rfl | hat
        · rcases List.mem_cons.mp hb with rfl | hbt
          · exact absurd rfl hab
          · exact ⟨b, hbt, hab⟩
        · rcases List.mem_cons.mp hb with rfl | hbt
          · exact ⟨a, hat, fun hh => hab hh.symm⟩
          · exact absurd (hmt a hat b hbt) hab
      obtain ⟨c, hc, hxc⟩ := hxc
      show insertionSortE eventLeE (x :: t) = _
      unfold insertionSortE
      rw [show insertionSortE eventLeE t = .ok (List.insertionSort eventLE t) from
        sortEvents_homogeneous t hmt]
      have hne : List.insertionSort eventLE t ≠ [] := by
        intro hnil
        have hp := List.perm_insertionSort eventLE t
        rw [hnil] at hp
        exact absurd (hp.symm.subset hc) (List.not_mem_nil c)
      obtain ⟨h0, rest, hrest⟩ := List.exists_cons_of_ne_nil hne
      rw [hrest]
      have hh0 : h0 ∈ t := (List.perm_insertionSort eventLE t).subset (by rw [hrest]; simp)
      have hx0 : evAware x ≠ evAware h0 := by
        rw [hmt h0 hh0 c hc]
        exact hxc
      show orderedInsertE eventLeE x (h0 :: rest) = _
      unfold orderedInsertE
      rw [eventLeE_of_diff x h0 hx0]
    · push_neg at hmt
      obtain ⟨p, hp, q, hq, hpq⟩ := hmt
      show insertionSortE eventLeE (x :: t) = _
      unfold insertionSortE
      rw [show insertionSortE eventLeE t = .error .typeError from ih ⟨p, hp, q, hq, hpq⟩]

/-- Mixed list on which the original claim C6 fails: the first event has an
unset begin, so its sort key is the naive `datetime.max` fallback, while the
second has an offset-aware parseable begin. -/
def wEvents : List CalEvent :=
  [⟨"u", .unset, .unset, ""⟩, ⟨"g", .str "2025-10-18T09:00:00Z", .unset, ""⟩]

/-- Claim C6 fails as stated: on a list holding one event with an
unparseable-keyed (unset) begin next to one with an offset-aware parseable
begin — the very mix the `datetime.max` fallback exists for — the key
comparison pairs a naive datetime with an aware one, raising `TypeError`, so
the sort aborts instead of completing with the unparseable entry last. -/
theorem c6_counterexample_mixed_sort_aborts :
    sortEvents wEvents = .error PyExn.typeError ∧
    startUnparseable ⟨"u", .unset, .unset, ""⟩ = true ∧
    startUnparseable ⟨"g", .str "2025-10-18T09:00:00Z", .unset, ""⟩ = false := by
  exact ⟨by decide, by decide, by decide⟩

/-- Claim C6 amended: the sort key is total (unparseable or unset starts map
to the naive `datetime.max` instead of raising), but the key comparison is
partial.  When all computed keys agree in timezone-awareness the sort
completes; every adjacent pair of the sorted output is then ordered by the
start key, and — provided each parseable start keys strictly below
`datetime.max` — entries with unparseable starts sort after all parseable
entries.  When the keys mix an aware parsed start with a naive key (in
particular the naive `datetime.max` fallback), the comparison raises
`TypeError` and the sort aborts. -/
theorem c6_sort_by_start_key (events : List CalEvent) :
    ((∀ a ∈ events, ∀ b ∈ events, evAware a = evAware b) →
      sortEvents events = .ok (List.insertionSort eventLE events) ∧
      List.Chain' eventLE (List.insertionSort eventLE events) ∧
      ((∀ e ∈ events, startUnparseable e = false →
          dtKey (get_event_start_dt e) < dtKey dtMax) →
        List.Pairwise (fun a b => startUnparseable a = true → startUnparseable b = true)
          (List.insertionSort eventLE events))) ∧
    (∀ a ∈ events, ∀ b ∈ events, evAware a ≠ evAware b →
      sortEvents events = .error .typeError) := by
  constructor
  · intro hhom
    refine ⟨sortEvents_homogeneous events hhom,
      (List.sorted_insertionSort eventLE events).chain', ?_⟩
    intro hpars
    have hsorted : List.Sorted eventLE (List.insertionSort eventLE events) :=
      List.sorted_insertionSort eventLE events
    have hmem : ∀ x ∈ List.insertionSort eventLE events, x ∈ events := fun x hx =>
      (List.perm_insertionSort eventLE events).subset hx
    refine List.Pairwise.imp_of_mem ?_ hsorted
    intro a b ha hb hr hua
    by_contra hub
    have hub' : startUnparseable b = false := by
      cases hv : startUnparseable b
      · rfl
      · exact absurd hv hub
    have hkb := hpars b (hmem b hb) hub'
    have hka : get_event_start_dt a = dtMax := get_event_start_dt_of_unparseable a hua
    unfold eventLE at hr
    rw [hka] at hr
    omega
  · intro a ha b hb hd
    exact sortEvents_mixed events ⟨a, ha, b, hb, hd⟩

/-- All-naive list for the C6 witness: one unset begin (keyed as the naive
`datetime.max`) and one naive parseable begin. -/
def wNaiveEvents : List CalEvent :=
  [⟨"u", .unset, .unset, ""⟩, ⟨"n", .str "2025-10-18T09:00:00", .unset, ""⟩]

/-- Witness for the amended C6: the all-naive list sorts, with ordered
adjacent pairs and the unparseable entry last, while the mixed list aborts
with `TypeError`. -/
theorem c6_sort_by_start_key_witness :
    (sortEvents wNaiveEvents = .ok (List.insertionSort eventLE wNaiveEvents) ∧
      List.Chain' eventLE (List.insertionSort eventLE wNaiveEvents) ∧
      List.Pairwise (fun a b => startUnparseable a = true → startUnparseable b = true)
        (List.insertionSort eventLE wNaiveEvents)) ∧
    sortEvents wEvents = .error PyExn.typeError := by
  constructor
  · have h := (c6_sort_by_start_key wNaiveEvents).1 (by decide)
    exact ⟨h.1, h.2.1, h.2.2 (by decide)⟩
  · exact (c6_sort_by_start_key wEvents).2 ⟨"u", .unset, .unset, ""⟩ (by decide)
      ⟨"g", .str "2025-10-18T09:00:00Z", .unset, ""⟩ (by decide) (by decide)

/-! ## Claim C7 -/

theorem toOrdinal_day_succ (y m d : Nat) : toOrdinal y m (d + 1) = toOrdinal y m d + 1 := by
  unfold toOrdinal
  omega

theorem daysInMonth_ge_28 (y m : Nat) (h1 : 1 ≤ m) (h2 : m ≤ 12) : 28 ≤ daysInMonth y m := by
  interval_cases m <;> simp only [daysInMonth] <;> first
    | omega
    | (split <;> omega)

theorem addOneDay_in_month (y m d : Nat) (h : d < daysInMonth y m) :
    addOneDay ⟨y, m, d⟩ = ⟨y, m, d + 1⟩ := by
  unfold addOneDay
  simp [h]

theorem firstThursdayFrom_finds (y m : Nat) :
    ∀ (k fuel d : Nat), k < fuel → 1 ≤ d → d + k ≤ daysInMonth y m →
      weekday y m (d + k) = 3 → (∀ j < k, weekday y m (d + j) ≠ 3) →
      firstThursdayFrom fuel ⟨y, m, d⟩ = some ⟨y, m, d + k⟩ := by
  intro k
  induction k with
  | zero =>
    intro fuel d hf _ _ hthu _
    obtain ⟨f, rfl⟩ : ∃ f, fuel = f + 1 := ⟨fuel - 1, by omega⟩
    rw [Nat.add_zero] at hthu
    unfold firstThursdayFrom
    simp [hthu]
  | succ k ih =>
    intro fuel d hf hd hstay hthu hmin
    obtain ⟨f, rfl⟩ : ∃ f, fuel = f + 1 := ⟨fuel - 1, by omega⟩
    have h0 : weekday y m d ≠ 3 := by
      have := hmin 0 (by omega)
      rw [Nat.add_zero] at this
      exact this
    have hthu' : weekday y m ((d + 1) + k) = 3 := by
      rw [show (d + 1) + k = d + (k + 1) from by omega]
      exact hthu
    have hmin' : ∀ j < k, weekday y m ((d + 1) + j) ≠ 3 := by
      intro j hj
      rw [show (d + 1) + j = d + (j + 1) from by omega]
      exact hmin (j + 1) (by omega)
    have hres := ih f (d + 1) (by omega) (by omega) (by omega) hthu' hmin'
    unfold firstThursdayFrom
    simp [h0]
    rw [addOneDay_in_month y m d (by omega), hres,
      show (d + 1) + k = d + (k + 1) from by omega]

theorem exists_first_thursday_offset (y m : Nat) :
    ∃ k, k ≤ 6 ∧ weekday y m (1 + k) = 3 ∧ ∀ j < k, weekday y m (1 + j) ≠ 3 := by
  have hw : ∀ j, weekday y m (1 + j) = (toOrdinal y m 1 + j + 6) % 7 := by
    intro j
    unfold weekday
    have h : toOrdinal y m (1 + j) = toOrdinal y m 1 + j := by
      unfold toOrdinal
      omega
    rw [h]
  refine ⟨(11 - toOrdinal y m 1 % 7) % 7, by omega, ?_, ?_⟩
  · rw [hw]
    omega
  · intro j hj
    rw [hw]
    omega

theorem ftEvent_spec (y m : Nat) (h1 : 1 ≤ m) (h2 : m ≤ 12) :
    ∃ d, 1 ≤ d ∧ d ≤ 7 ∧ weekday y m d = 3 ∧
      (∀ j, 1 ≤ j → j < d → weekday y m j ≠ 3) ∧
      ftEvent y m = ⟨"First Thursdays", .dt ⟨y, m, d, 16, 0, 0, 0, none⟩,
        .dt ⟨y, m, d, 23, 0, 0, 0, none⟩, "Monthly art and culture event in Cape Town."⟩ := by
  obtain ⟨k, hk6, hthu, hmin⟩ := exists_first_thursday_offset y m
  have hdim := daysInMonth_ge_28 y m h1 h2
  have hscan := firstThursdayFrom_finds y m k 7 1 (by omega) (by omega) (by omega) hthu hmin
  refine ⟨1 + k, by omega, by omega, hthu, ?_, ?_⟩
  · intro j hj1 hjk
    have h := hmin (j - 1) (by omega)
    rw [show 1 + (j - 1) = j from by omega] at h
    exact h
  · unfold ftEvent
    rw [hscan]

/-- Claim C7: the First Thursdays generator is the per-(year, month) event
function mapped over the twelve months of each given year, so it emits
exactly twelve events per year and is fully determined by the (year, month)
pairs; and for every year and month the emitted event sits on the first day
of the month (scanning from the 1st) whose weekday index is 3, within the
first seven days, with start 16:00:00, end 23:00:00, zero sub-second parts,
and the fixed name and description. -/
theorem c7_first_thursdays_generator :
    (∀ years : List Nat, add_first_thursdays years =
        years.flatMap fun y => (List.range 12).map fun m0 => ftEvent y (m0 + 1)) ∧
    (∀ years : List Nat, (add_first_thursdays years).length = 12 * years.length) ∧
    (∀ y m : Nat, 1 ≤ m → m ≤ 12 → ∃ d, 1 ≤ d ∧ d ≤ 7 ∧ weekday y m d = 3 ∧
      (∀ j, 1 ≤ j → j < d → weekday y m j ≠ 3) ∧
      ftEvent y m = ⟨"First Thursdays", .dt ⟨y, m, d, 16, 0, 0, 0, none⟩,
        .dt ⟨y, m, d, 23, 0, 0, 0, none⟩,
        "Monthly art and culture event in Cape Town."⟩) := by
  refine ⟨fun _ => rfl, ?_, fun y m h1 h2 => ftEvent_spec y m h1 h2⟩
  intro years
  induction years with
  | nil => rfl
  | cons y ys ih =>
    unfold add_first_thursdays at ih ⊢
    simp only [List.flatMap_cons, List.length_append, List.length_map, List.length_range, ih,
      List.length_cons]
    omega

/-- Witness for C7 at year 2025: twelve events for the single year 2025, and
for January 2025 the generated event (first Thursday: 2025-01-02). -/
theorem c7_first_thursdays_generator_witness :
    (add_first_thursdays [2025]).length = 12 * (1 : Nat) ∧
    (∃ d, 1 ≤ d ∧ d ≤ 7 ∧ weekday 2025 1 d = 3 ∧
      (∀ j, 1 ≤ j → j < d → weekday 2025 1 j ≠ 3) ∧
      ftEvent 2025 1 = ⟨"First Thursdays", .dt ⟨2025, 1, d, 16, 0, 0, 0, none⟩,
        .dt ⟨2025, 1, d, 23, 0, 0, 0, none⟩,
        "Monthly art and culture event in Cape Town."⟩) := by
  refine ⟨?_, c7_first_thursdays_generator.2.2 2025 1 (by decide) (by decide)⟩
  have h := c7_first_thursdays_generator.2.1 [2025]
  simpa using h

/-! ## Claim C8 -/

theorem fetch_site_net_error (env : Env) (s : SiteDesc) (msg : String)
    (h : env.net s.url = .error msg) :
    fetch_site env s.name s.url s.patterns =
      ⟨.ok none, [s.url], ["Failed to fetch " ++ s.url ++ ": " ++ msg]⟩ := by
  unfold fetch_site safe_get
  rw [h]

theorem fetch_site_requests (env : Env) (name url : String) (pats : Option (List Pattern)) :
    (fetch_site env name url pats).requests = [url] := by
  unfold fetch_site safe_get
  cases env.net url with
  | error e => rfl
  | ok t =>
    dsimp only
    split
    · rfl
    · rfl
    · split <;> rfl

theorem fetch_all_events_requests (env : Env) (sites : List SiteDesc) :
    (fetch_all_events env sites).requests = sites.map SiteDesc.url := by
  induction sites with
  | nil => rfl
  | cons s rest ih =>
    show (runStep s.name (fetch_site env s.name s.url s.patterns)
      (fetch_all_events env rest)).requests = _
    have hreq := fetch_site_requests env s.name s.url s.patterns
    cases hres : (fetch_site env s.name s.url s.patterns).result with
    | error e => simp [runStep, hres, hreq, ih]
    | ok o => cases o <;> simp [runStep, hres, hreq, ih]

/-- Claim C8: a transport failure for one site is absorbed inside `safe_get`
(the fetch returns a falsy value instead of raising), logged as a warning,
and the site record is omitted while every other site of the run is
unaffected; exactly one request is made per site of the list, in order, so
the failing site is attempted exactly once and never retried. -/
theorem c8_transport_failure_isolated (env : Env) (s₁ : List SiteDesc) (s : SiteDesc)
    (s₂ : List SiteDesc) (msg : String) (h : env.net s.url = .error msg) :
    (fetch_all_events env (s₁ ++ s :: s₂)).results =
      (fetch_all_events env (s₁ ++ s₂)).results ∧
    (fetch_all_events env (s₁ ++ s :: s₂)).requests = (s₁ ++ s :: s₂).map SiteDesc.url ∧
    (fetch_all_events env (s₁ ++ s :: s₂)).warnings =
      (fetch_all_events env s₁).warnings ++
        ("Failed to fetch " ++ s.url ++ ": " ++ msg) :: (fetch_all_events env s₂).warnings ∧
    (fetch_all_events env (s₁ ++ s :: s₂)).errors =
      (fetch_all_events env (s₁ ++ s₂)).errors := by
  have hsite := fetch_site_net_error env s msg h
  have hmid : fetch_all_events env (s :: s₂) =
      ⟨(fetch_all_events env s₂).results, s.url :: (fetch_all_events env s₂).requests,
        ("Failed to fetch " ++ s.url ++ ": " ++ msg) :: (fetch_all_events env s₂).warnings,
        (fetch_all_events env s₂).errors⟩ := by
    show runStep s.name (fetch_site env s.name s.url s.patterns)
      (fetch_all_events env s₂) = _
    rw [hsite]
    rfl
  refine ⟨?_, fetch_all_events_requests env (s₁ ++ s :: s₂), ?_, ?_⟩
  · rw [fetch_all_events_append env s₁ (s :: s₂), fetch_all_events_append env s₁ s₂, hmid]
  · rw [fetch_all_events_append env s₁ (s :: s₂), hmid]
  · rw [fetch_all_events_append env s₁ (s :: s₂), fetch_all_events_append env s₁ s₂, hmid]

/-- Environment for the C8 witness: site B times out, every other fetch
returns a page containing a parseable date phrase. -/
def wEnv : Env :=
  ⟨fun u => if u = "http://b" then .error "timeout" else .ok "18 to 19 October 2025",
    id, 2025⟩

/-- Witness for C8: with site B failing between sites A and C, the records
equal those of the run without B, exactly one request per site is made in
order, the failure is logged as a warning, and no extractor error is
logged. -/
theorem c8_transport_failure_isolated_witness :
    (fetch_all_events wEnv ([⟨"A", "http://a", none⟩] ++ ⟨"B", "http://b", none⟩ ::
        [⟨"C", "http://c", none⟩])).results =
      (fetch_all_events wEnv ([⟨"A", "http://a", none⟩] ++ [⟨"C", "http://c", none⟩])).results ∧
    (fetch_all_events wEnv ([⟨"A", "http://a", none⟩] ++ ⟨"B", "http://b", none⟩ ::
        [⟨"C", "http://c", none⟩])).requests =
      ([⟨"A", "http://a", none⟩, ⟨"B", "http://b", none⟩,
        ⟨"C", "http://c", none⟩] : List SiteDesc).map SiteDesc.url ∧
    (fetch_all_events wEnv ([⟨"A", "http://a", none⟩] ++ ⟨"B", "http://b", none⟩ ::
        [⟨"C", "http://c", none⟩])).warnings =
      (fetch_all_events wEnv [⟨"A", "http://a", none⟩]).warnings ++
        ("Failed to fetch " ++ "http://b" ++ ": " ++ "timeout") ::
          (fetch_all_events wEnv [⟨"C", "http://c", none⟩]).warnings ∧
    (fetch_all_events wEnv ([⟨"A", "http://a", none⟩] ++ ⟨"B", "http://b", none⟩ ::
        [⟨"C", "http://c", none⟩])).errors =
      (fetch_all_events wEnv ([⟨"A", "http://a", none⟩] ++ [⟨"C", "http://c", none⟩])).errors := by
  exact c8_transport_failure_isolated wEnv [⟨"A", "http://a", none⟩] ⟨"B", "http://b", none⟩
    [⟨"C", "http://c", none⟩] "timeout" (by decide)
